import Mathlib

/-!
Verification of the storage core of `sqldb-rs`: the MVCC transaction layer
(`src/storage/mvcc.rs`) over the ordered byte-keyed engine abstraction
(`src/storage/engine.rs`), and the SQL key-value layer (`src/sql/engine/kv.rs`).

Shallow embedding conventions:
* Byte strings (`Vec<u8>`) are `List Nat` values.
* The shared mutable store behind `Arc<Mutex<E>>` is threaded explicitly: every
  operation takes the current store and returns the next store.  All
  transactions obtained from one `Mvcc` handle share that single store, exactly
  as every `MvccTransaction` clone shares the one `Arc<Mutex<E>>`.
* Rust `Result<T>` becomes `Except DBError T`.
-/

set_option autoImplicit false

/-- Byte strings (`Vec<u8>`). The model does not bound entries below 256: no
claim depends on the byte range, only on equality and lexicographic order. -/
abbrev Bytes : Type := List Nat

/-- Strict byte-lexicographic order on byte strings, the order of `scan` in
the ordered byte store (spec section 4.1). -/
def bytesLt : Bytes → Bytes → Bool
  | [], [] => false
  | [], _ :: _ => true
  | _ :: _, [] => false
  | a :: as, b :: bs => if a < b then true else if b < a then false else bytesLt as bs

/-- Predicate `isPref p k`: holds when byte string `k` starts with `p`. -/
def isPref : Bytes → Bytes → Bool
  | [], _ => true
  | _ :: _, [] => false
  | a :: as, b :: bs => a = b && isPref as bs

/-- Modelled from the spec: `error.rs` is absent from the sources; spec
section 7 gives the error taxonomy, and only the `Internal` constructor is
ever built by the code under verification. -/
inductive DBError : Type
  | internal (msg : String) : DBError
deriving DecidableEq

/-- The shared store: an association list of (key, value) entries kept in
strictly ascending key order. -/
abbrev Store : Type := List (Bytes × Bytes)

/-- Modelled from the spec: `storage/memory.rs` (the in-memory `Engine`
implementation referenced by the tests) is missing from the sources; spec
section 4.1 fixes its contract.  `set` inserts or overwrites, keeping entries
in ascending key order. -/
def MemoryEngine.set (st : Store) (k v : Bytes) : Store :=
  match st with
  | [] => [(k, v)]
  | e :: rest =>
    if bytesLt k e.1 then (k, v) :: e :: rest
    else if k = e.1 then (k, v) :: rest
    else e :: MemoryEngine.set rest k v

/-- Modelled from the spec: point lookup in the missing in-memory engine
(spec section 4.1). -/
def MemoryEngine.get (st : Store) (k : Bytes) : Option Bytes :=
  match st with
  | [] => none
  | e :: rest => if e.1 = k then some e.2 else MemoryEngine.get rest k

/-- Modelled from the spec: point delete in the missing in-memory engine
(spec section 4.1). -/
def MemoryEngine.delete (st : Store) (k : Bytes) : Store :=
  match st with
  | [] => []
  | e :: rest => if e.1 = k then rest else e :: MemoryEngine.delete rest k

/-- Modelled from the spec: `scan_prefix` of the missing in-memory engine:
the ordered sequence of entries whose key starts with the prefix
(spec section 4.1). -/
def MemoryEngine.scanPref (st : Store) (p : Bytes) : List (Bytes × Bytes) :=
  st.filter (fun e => isPref p e.1)

/-- Store well-formedness: entries strictly ascending by key (the invariant
of the ordered byte store). -/
def Store.WF (st : Store) : Prop :=
  List.Pairwise (fun a b : Bytes × Bytes => bytesLt a.1 b.1 = true) st

instance (st : Store) : Decidable st.WF :=
  inferInstanceAs (Decidable (List.Pairwise _ st))

/-- Transaction handle `MvccTransaction<E>` from `src/storage/mvcc.rs`: its only field is the
shared `Arc<Mutex<E>>` engine handle (threaded here as the explicit `Store`
argument of each operation), so the transaction value itself carries no
version, no snapshot and no write-set. -/
structure MvccTransaction where

instance : DecidableEq MvccTransaction := fun _ _ => .isTrue rfl

/-- Embedding of `Mvcc::begin` (`mvcc.rs` lines 25-27): wraps `MvccTransaction::begin`,
which only stores the cloned engine handle.  The store is untouched. -/
def Mvcc.begin (st : Store) : Except DBError (MvccTransaction × Store) :=
  .ok (⟨⟩, st)

/-- Embedding of `MvccTransaction::commit` (`mvcc.rs` lines 39-41): returns `Ok(())`
without touching the engine. -/
def MvccTransaction.commit (_t : MvccTransaction) (st : Store) :
    Except DBError (Unit × Store) :=
  .ok ((), st)

/-- Embedding of `MvccTransaction::rollback` (`mvcc.rs` lines 43-45): returns `Ok(())`
without touching the engine. -/
def MvccTransaction.rollback (_t : MvccTransaction) (st : Store) :
    Except DBError (Unit × Store) :=
  .ok ((), st)

/-- Embedding of `MvccTransaction::set` (`mvcc.rs` lines 47-50): locks the shared engine
and calls `engine.set` directly. -/
def MvccTransaction.set (_t : MvccTransaction) (st : Store) (k v : Bytes) :
    Except DBError (Unit × Store) :=
  .ok ((), MemoryEngine.set st k v)

/-- Embedding of `MvccTransaction::get` (`mvcc.rs` lines 52-55): locks the shared engine
and calls `engine.get` directly. -/
def MvccTransaction.get (_t : MvccTransaction) (st : Store) (k : Bytes) :
    Except DBError (Option Bytes × Store) :=
  .ok (MemoryEngine.get st k, st)

/-- Scan entry `ScanResult` from `mvcc.rs`. -/
structure ScanResult where
  key : Bytes
  value : Bytes
deriving DecidableEq

/-- Embedding of `MvccTransaction::scan_prefix` (`mvcc.rs` lines 57-65): locks the engine,
runs `engine.scan_prefix` and collects the entries in iterator order. -/
def MvccTransaction.scanPref (_t : MvccTransaction) (st : Store) (p : Bytes) :
    Except DBError (List ScanResult × Store) :=
  .ok ((MemoryEngine.scanPref st p).map (fun e => ⟨e.1, e.2⟩), st)

/-- Operations a client can issue through a transaction (the `MvccTransaction`
surface used by the SQL layer). -/
inductive KvOp : Type
  | setOp (k v : Bytes)
  | getOp (k : Bytes)
  | scanOp (p : Bytes)
  | commitOp
  | rollbackOp
deriving DecidableEq

/-- Observable answer of one operation. -/
inductive KvOut : Type
  | ack
  | gotten (r : Option Bytes)
  | scanned (l : List ScanResult)
deriving DecidableEq

/-- One step of a transaction through the MVCC layer, as embedded from
`mvcc.rs`. -/
def mvccStep (t : MvccTransaction) (st : Store) : KvOp → Except DBError (KvOut × Store)
  | .setOp k v => (t.set st k v).map (fun r => (.ack, r.2))
  | .getOp k => (t.get st k).map (fun r => (.gotten r.1, r.2))
  | .scanOp p => (t.scanPref st p).map (fun r => (.scanned r.1, r.2))
  | .commitOp => (t.commit st).map (fun r => (.ack, r.2))
  | .rollbackOp => (t.rollback st).map (fun r => (.ack, r.2))

/-- Run a whole trace of operations through the MVCC layer.  Each trace entry
names the transaction performing the operation, so a trace may interleave any
number of transactions obtained from the same `Mvcc` handle: they all act on
the one shared store. -/
def mvccRun (st : Store) : List (MvccTransaction × KvOp) → Except DBError (List KvOut × Store)
  | [] => .ok ([], st)
  | (t, op) :: rest =>
    match mvccStep t st op with
    | .error e => .error e
    | .ok (o, st') =>
      match mvccRun st' rest with
      | .error e => .error e
      | .ok (os, st'') => .ok (o :: os, st'')

/-- Spec side of the refinement claim: the same operation issued directly
against the underlying engine on the single shared store; commit and rollback
do nothing. -/
def engineStep (st : Store) : KvOp → KvOut × Store
  | .setOp k v => (.ack, MemoryEngine.set st k v)
  | .getOp k => (.gotten (MemoryEngine.get st k), st)
  | .scanOp p => (.scanned ((MemoryEngine.scanPref st p).map fun e => ⟨e.1, e.2⟩), st)
  | .commitOp => (.ack, st)
  | .rollbackOp => (.ack, st)

/-- Spec side of the refinement claim: run a trace directly on the engine. -/
def engineRun (st : Store) : List KvOp → List KvOut × Store
  | [] => ([], st)
  | op :: rest =>
    let (o, st') := engineStep st op
    let (os, st'') := engineRun st' rest
    (o :: os, st'')

/-- Column data types, `DataType` from `src/sql/types/mod.rs`. -/
inductive DataType : Type
  | boolean
  | integer
  | float
  | string
deriving DecidableEq

/-- SQL values, `Value` from `src/sql/types/mod.rs`.  The `f64` payload of
`Float` is modelled as its 64-bit pattern; no claim inspects float
arithmetic. -/
inductive Value : Type
  | null
  | boolean (b : Bool)
  | integer (i : Int)
  | float (bits : Nat)
  | string (s : String)
deriving DecidableEq

/-- Row of values, `Row = Vec<Value>` from `src/sql/types/mod.rs`. -/
abbrev Row : Type := List Value

/-- Modelled from the spec: the `Value::datatype` implementation is absent
from the sources (only its caller in `kv.rs` survives); its behaviour is
forced by that caller: `Null` has no datatype, every other constructor has
its own type. -/
def Value.datatype : Value → Option DataType
  | .null => none
  | .boolean _ => some .boolean
  | .integer _ => some .integer
  | .float _ => some .float
  | .string _ => some .string

/-- Modelled from the spec: the `schema` module (struct `Column`) is absent
from the sources; spec section 1 places schema encoding with the SQL layer,
and the fields are fixed by the construction site in
`src/sql/plan/planner.rs`. -/
structure Column where
  name : String
  datatype : DataType
  nullable : Bool
  default : Option Value
deriving DecidableEq

/-- Modelled from the spec: the `schema` module (struct `Table`) is absent
from the sources; fields fixed by the construction site in `planner.rs`. -/
structure Table where
  name : String
  columns : List Column
deriving DecidableEq

/-- Modelled from the spec: serialization of a string, length then the
character codes.  The `bincode` crate is external to the repository; the
claims depend only on serialization being a function of the encoded datum,
never on the exact byte layout. -/
def encodeStr (s : String) : Bytes :=
  s.toList.length :: s.toList.map Char.toNat

/-- Modelled from the spec: deserialization of a string; inverse of `encodeStr`. -/
def decodeStr : Bytes → Option (String × Bytes)
  | [] => none
  | len :: rest =>
    if len ≤ rest.length then
      some (String.mk ((rest.take len).map Char.ofNat), rest.drop len)
    else none

/-- Modelled from the spec: serialization of a `Value`, tag plus payload, self-delimiting. -/
def encodeValue : Value → Bytes
  | .null => [0]
  | .boolean b => [1, if b then 1 else 0]
  | .integer i => [2, (i % ((2 : Int) ^ 64)).toNat]
  | .float bits => [3, bits]
  | .string s => 4 :: encodeStr s

/-- Modelled from the spec: deserialization of a `Value`; inverse of `encodeValue`. -/
def decodeValue : Bytes → Option (Value × Bytes)
  | 0 :: rest => some (.null, rest)
  | 1 :: b :: rest => some (.boolean (b != 0), rest)
  | 2 :: n :: rest =>
    some (.integer (if n < 2 ^ 63 then (n : Int) else (n : Int) - 2 ^ 64), rest)
  | 3 :: bits :: rest => some (.float bits, rest)
  | 4 :: rest => (decodeStr rest).map (fun r => (.string r.1, r.2))
  | _ => none

/-- Modelled from the spec: serialization of a `DataType` tag. -/
def encodeDataType : DataType → Nat
  | .boolean => 0
  | .integer => 1
  | .float => 2
  | .string => 3

/-- Modelled from the spec: deserialization of a `DataType` tag. -/
def decodeDataType : Nat → Option DataType
  | 0 => some .boolean
  | 1 => some .integer
  | 2 => some .float
  | 3 => some .string
  | _ => none

/-- Modelled from the spec: serialization of a `Column`. -/
def encodeColumn (c : Column) : Bytes :=
  encodeStr c.name ++ [encodeDataType c.datatype, if c.nullable then 1 else 0] ++
    (match c.default with
     | none => [0]
     | some v => 1 :: encodeValue v)

/-- Modelled from the spec: deserialization of a `Column`; inverse of `encodeColumn`. -/
def decodeColumn (bs : Bytes) : Option (Column × Bytes) := do
  let (name, bs1) ← decodeStr bs
  match bs1 with
  | dt :: nb :: rest => do
    let datatype ← decodeDataType dt
    match rest with
    | 0 :: rest1 => some (⟨name, datatype, nb != 0, none⟩, rest1)
    | 1 :: rest1 => do
      let (v, rest2) ← decodeValue rest1
      some (⟨name, datatype, nb != 0, some v⟩, rest2)
    | _ => none
  | _ => none

/-- Modelled from the spec: deserialization of `n` consecutive columns. -/
def decodeColumns : Nat → Bytes → Option (List Column × Bytes)
  | 0, bs => some ([], bs)
  | n + 1, bs => do
    let (c, bs1) ← decodeColumn bs
    let (cs, bs2) ← decodeColumns n bs1
    some (c :: cs, bs2)

/-- Modelled from the spec: serialization of a `Table`. -/
def encodeTable (t : Table) : Bytes :=
  encodeStr t.name ++ t.columns.length :: (t.columns.map encodeColumn).flatten

/-- Modelled from the spec: deserialization of a `Table`; inverse of `encodeTable`. -/
def decodeTable (bs : Bytes) : Option Table := do
  let (name, bs1) ← decodeStr bs
  match bs1 with
  | n :: rest => do
    let (cols, _) ← decodeColumns n rest
    some ⟨name, cols⟩
  | [] => none

/-- Modelled from the spec: serialization of a `Row` (`Vec<Value>`). -/
def encodeRow (r : Row) : Bytes :=
  r.length :: (r.map encodeValue).flatten

/-- Storage keys of the SQL layer, enum `Key` from `src/sql/engine/kv.rs`:
`Key::Table(name)` for schemas, `Key::Row(name, first_value)` for rows. -/
inductive KvKey : Type
  | table (name : String)
  | row (name : String) (v : Value)
deriving DecidableEq

/-- Modelled from the spec: serialization of a `Key`, the variant tag then
the payloads (mirrors `bincode::serialize(&id)` in `kv.rs`; spec section 6
describes the discriminated logical-key sub-scheme). -/
def encodeKey : KvKey → Bytes
  | .table n => 0 :: encodeStr n
  | .row n v => 1 :: (encodeStr n ++ encodeValue v)

/-- Embedding of `KVTransaction::get_table` (`kv.rs` lines 122-130): reads the
serialized schema through the MVCC transaction (a direct engine `get` here)
and deserializes it; a record that fails to deserialize is an error. -/
def KVTransaction.get_table (st : Store) (name : String) : Except DBError (Option Table) :=
  match MemoryEngine.get st (encodeKey (.table name)) with
  | none => .ok none
  | some bs =>
    match decodeTable bs with
    | some t => .ok (some t)
    | none => .error (.internal "deserialize failed")

/-- Embedding of `Transaction::must_get_table` (`sql/engine/mod.rs` lines
26-31): `get_table`, turning absence into an `Internal` error. -/
def KVTransaction.must_get_table (st : Store) (name : String) : Except DBError Table :=
  match KVTransaction.get_table st name with
  | .error e => .error e
  | .ok none => .error (.internal ("table " ++ name ++ " does not exist"))
  | .ok (some t) => .ok t

/-- Per-column validation of one value, the match arms inside `create_row`
(`kv.rs` lines 66-81): `none` means the value passes; `some e` is the
validation error returned. -/
def colOk (c : Column) (v : Value) : Option DBError :=
  match v.datatype with
  | none =>
    if c.nullable then none
    else some (.internal ("column " ++ c.name ++ " cannot be null"))
  | some dt =>
    if dt ≠ c.datatype then some (.internal ("column " ++ c.name ++ " type mismatch"))
    else none

/-- Outcome of the validation loop of `create_row`: Rust's `row[i]` panics
when `i` is out of bounds, so the loop has three outcomes. -/
inductive CheckRes : Type
  | panicked
  | failed (e : DBError)
  | passed
deriving DecidableEq

/-- Embedding of the validation loop of `create_row` (`kv.rs` lines 65-82):
`for (i, col) in table.columns.iter().enumerate() { match row[i].datatype()
{ ... } }`.  The index `i` runs over the columns, not the row, so `row[i]`
panics when the row is shorter and validation reaches its end. -/
def checkLoop (row : Row) : List Column → Nat → CheckRes
  | [], _ => .passed
  | c :: rest, i =>
    match row.get? i with
    | none => .panicked
    | some v =>
      match colOk c v with
      | some e => .failed e
      | none => checkLoop row rest (i + 1)

/-- Outcome of `create_row`: panic, error, or updated store. -/
inductive RowRes : Type
  | panicked
  | failed (e : DBError)
  | stored (st : Store)
deriving DecidableEq

/-- Embedding of `KVTransaction::create_row` (`kv.rs` lines 63-88):
`must_get_table`, the validation loop, then `Key::Row(table_name, row[0])`
serialized as the storage key and the serialized row stored through
`txn.set` (a direct engine `set`).  `row[0]` panics on an empty row. -/
def KVTransaction.create_row (st : Store) (table_name : String) (row : Row) : RowRes :=
  match KVTransaction.must_get_table st table_name with
  | .error e => .failed e
  | .ok table =>
    match checkLoop row table.columns 0 with
    | .panicked => .panicked
    | .failed e => .failed e
    | .passed =>
      match row.head? with
      | none => .panicked
      | some v0 =>
        .stored (MemoryEngine.set st (encodeKey (.row table_name v0)) (encodeRow row))

/-- Demo schema for concrete scenarios: table `t` with a non-nullable integer
column `a` and a nullable integer column `b`. -/
def demoTable : Table :=
  ⟨"t", [⟨"a", .integer, false, none⟩, ⟨"b", .integer, true, some .null⟩]⟩

/-- Demo store holding just the serialized demo schema. -/
def demoStore : Store :=
  MemoryEngine.set [] (encodeKey (.table "t")) (encodeTable demoTable)

/-- Demo store for scans: three entries in ascending key order, two of them
under the prefix `[0]`. -/
def demoScanStore : Store := [([0], [1]), ([0, 1], [2]), ([1], [3])]

theorem MemoryEngine.get_set_self (st : Store) (k v : Bytes) :
    MemoryEngine.get (MemoryEngine.set st k v) k = some v := by
  induction st with
  | nil => simp [MemoryEngine.set, MemoryEngine.get]
  | cons e rest ih =>
    rw [MemoryEngine.set]
    by_cases h1 : bytesLt k e.1 = true
    · rw [if_pos h1]
      simp [MemoryEngine.get]
    · rw [if_neg h1]
      by_cases h2 : k = e.1
      · rw [if_pos h2]
        simp [MemoryEngine.get]
      · rw [if_neg h2]
        simp [MemoryEngine.get, Ne.symm h2, ih]

theorem MemoryEngine.get_set_ne (st : Store) (k k' v : Bytes) (h : k' ≠ k) :
    MemoryEngine.get (MemoryEngine.set st k v) k' = MemoryEngine.get st k' := by
  induction st with
  | nil => simp [MemoryEngine.set, MemoryEngine.get, Ne.symm h]
  | cons e rest ih =>
    rw [MemoryEngine.set]
    by_cases h1 : bytesLt k e.1 = true
    · rw [if_pos h1]
      simp [MemoryEngine.get, Ne.symm h]
    · rw [if_neg h1]
      by_cases h2 : k = e.1
      · rw [if_pos h2]
        subst h2
        simp [MemoryEngine.get, Ne.symm h]
      · rw [if_neg h2]
        by_cases h3 : e.1 = k'
        · simp [MemoryEngine.get, h3]
        · simp [MemoryEngine.get, h3, ih]

/-- C5: commit cannot fail once writes succeeded: `MvccTransaction::commit`
returns `Ok(())` unconditionally (for any transaction, any store state, hence
in particular after any run of successful `set` calls) and performs no
re-validation — it does not even read the store. -/
theorem commit_always_ok (t : MvccTransaction) (st : Store) :
    t.commit st = Except.ok ((), st) := rfl

/-- C6: read-your-own-writes: within one transaction, `set(k, v)` followed by
`get(k)` returns `v` (no commit in between). -/
theorem read_your_own_writes (t : MvccTransaction) (st : Store) (k v : Bytes) :
    (do
      let (_, s) ← t.set st k v
      t.get s k) = Except.ok (some v, MemoryEngine.set st k v) := by
  show Except.ok (MemoryEngine.get (MemoryEngine.set st k v) k, MemoryEngine.set st k v) =
    Except.ok (some v, MemoryEngine.set st k v)
  rw [MemoryEngine.get_set_self]

/-- C4: refinement: any trace of `set` / `get` / `scan_prefix` / `commit` /
`rollback` steps, interleaving any transactions obtained from the same `Mvcc`
handle, is observationally equivalent to issuing the same data operations
directly against the underlying engine on the single shared store, with
`commit` and `rollback` always succeeding and leaving the store unchanged.
In particular every write is immediately visible to every other
transaction. -/
theorem mvcc_refines_engine (st : Store) (ops : List (MvccTransaction × KvOp)) :
    mvccRun st ops = Except.ok (engineRun st (ops.map Prod.snd)) := by
  induction ops generalizing st with
  | nil => rfl
  | cons p rest ih =>
    obtain ⟨t, op⟩ := p
    cases op <;>
      simp [mvccRun, engineRun, mvccStep, engineStep, MvccTransaction.set,
        MvccTransaction.get, MvccTransaction.scanPref, MvccTransaction.commit,
        MvccTransaction.rollback, Except.map, ih]

/-- C1: snapshot isolation is violated by the code: starting from the empty
store, T1 begins and writes key `[0]` without committing; T2 then begins, and
T2's `get [0]` already returns T1's uncommitted value `[1]` (every operation
passes straight through to the shared engine), where the claim requires T2 to
never see T1's write. -/
theorem snapshot_isolation_violated :
    Mvcc.begin ([] : Store) = Except.ok (⟨⟩, []) ∧
    MvccTransaction.set ⟨⟩ [] [0] [1] = Except.ok ((), [([0], [1])]) ∧
    Mvcc.begin [([0], [1])] = Except.ok (⟨⟩, [([0], [1])]) ∧
    MvccTransaction.get ⟨⟩ [([0], [1])] [0] = Except.ok (some [1], [([0], [1])]) :=
  ⟨rfl, rfl, rfl, rfl⟩

/-- C2: rollback atomicity is violated by the code: T1 writes key `[0]`, then
`rollback()` returns `Ok(())` leaving the store untouched, and a subsequently
begun transaction still observes T1's rolled-back write `[1]` instead of the
pre-transaction state (key absent). -/
theorem rollback_writes_persist :
    MvccTransaction.set ⟨⟩ [] [0] [1] = Except.ok ((), [([0], [1])]) ∧
    MvccTransaction.rollback ⟨⟩ [([0], [1])] = Except.ok ((), [([0], [1])]) ∧
    Mvcc.begin [([0], [1])] = Except.ok (⟨⟩, [([0], [1])]) ∧
    MvccTransaction.get ⟨⟩ [([0], [1])] [0] = Except.ok (some [1], [([0], [1])]) :=
  ⟨rfl, rfl, rfl, rfl⟩

/-- C3: write-write conflict detection is absent from the code: T1 writes key
`[0]` and has not committed; a second transaction's `set` on the same key
returns `Ok` and overwrites T1's value in place instead of failing with a
Conflict error. -/
theorem no_write_conflict_detected :
    MvccTransaction.set ⟨⟩ [] [0] [1] = Except.ok ((), [([0], [1])]) ∧
    MvccTransaction.set ⟨⟩ [([0], [1])] [0] [2] = Except.ok ((), [([0], [2])]) :=
  ⟨rfl, rfl⟩

/-- C7: version allocation is absent from the code: `begin()` never assigns a
version — `MvccTransaction` has no version field, so the transactions produced
by two distinct `begin()` calls are the very same value and no strictly
increasing version distinguishes them. -/
theorem begin_allocates_no_version :
    Mvcc.begin ([] : Store) = Except.ok (⟨⟩, []) ∧
    Mvcc.begin [([0], [1])] = Except.ok (⟨⟩, [([0], [1])]) ∧
    (Mvcc.begin ([] : Store)).toOption.map Prod.fst =
      (Mvcc.begin [([0], [1])]).toOption.map Prod.fst :=
  ⟨rfl, rfl, rfl⟩

/-- C8: for every transaction and prefix `p`, `scan_prefix p` succeeds and
returns exactly the store entries whose key starts with `p` (all entries are
visible to every transaction and there are no tombstones in this pass-through
code, so the per-key visibility filter keeps everything), at most one entry
per logical key, in strictly ascending logical-key order. -/
theorem scanPref_exact_sorted (t : MvccTransaction) (st : Store) (p : Bytes)
    (h : st.WF) :
    ∃ l, t.scanPref st p = Except.ok (l, st) ∧
      (∀ r ∈ l, isPref p r.key = true) ∧
      List.Pairwise (fun a b : ScanResult => bytesLt a.key b.key = true) l ∧
      (∀ k v : Bytes, (⟨k, v⟩ : ScanResult) ∈ l ↔ (k, v) ∈ st ∧ isPref p k = true) := by
  refine ⟨(MemoryEngine.scanPref st p).map (fun e => ⟨e.1, e.2⟩), ?_, ?_, ?_, ?_⟩
  · rfl
  · intro r hr
    simp only [MemoryEngine.scanPref, List.mem_map, List.mem_filter] at hr
    obtain ⟨e, ⟨_, he⟩, hre⟩ := hr
    rw [← hre]
    exact he
  · rw [List.pairwise_map]
    exact List.Pairwise.sublist (List.filter_sublist st) h
  · intro k v
    simp only [MemoryEngine.scanPref, List.mem_map, List.mem_filter,
      ScanResult.mk.injEq]
    constructor
    · rintro ⟨e, ⟨hmem, hpref⟩, hk, hv⟩
      rw [← hk, ← hv]
      exact ⟨hmem, hpref⟩
    · rintro ⟨hmem, hpref⟩
      exact ⟨(k, v), ⟨hmem, hpref⟩, rfl, rfl⟩

/-- Witness for C8 at a concrete well-formed store and prefix `[0]`. -/
theorem scanPref_exact_sorted_witness :
    Store.WF demoScanStore ∧
    (∃ l, MvccTransaction.scanPref ⟨⟩ demoScanStore [0] = Except.ok (l, demoScanStore) ∧
      (∀ r ∈ l, isPref [0] r.key = true) ∧
      List.Pairwise (fun a b : ScanResult => bytesLt a.key b.key = true) l ∧
      (∀ k v : Bytes, (⟨k, v⟩ : ScanResult) ∈ l ↔
        (k, v) ∈ demoScanStore ∧ isPref [0] k = true)) :=
  ⟨by decide, scanPref_exact_sorted ⟨⟩ demoScanStore [0] (by decide)⟩

theorem tableKey_ne_rowKey (n n' : String) (v : Value) :
    encodeKey (KvKey.table n) ≠ encodeKey (KvKey.row n' v) := by
  simp [encodeKey]

theorem get_table_set_other (st : Store) (name : String) (k v : Bytes)
    (hk : encodeKey (KvKey.table name) ≠ k) :
    KVTransaction.get_table (MemoryEngine.set st k v) name =
      KVTransaction.get_table st name := by
  unfold KVTransaction.get_table
  rw [MemoryEngine.get_set_ne st k (encodeKey (KvKey.table name)) v hk]

/-- C9: `create_row` stores the row under `Key::Row(table_name, row[0])`, a
key built only from the table name and the row's first value; two validated
rows with the same first value are both accepted (the result is `stored`, no
duplicate-key error exists) and the second `set` overwrites the first at the
identical key. -/
theorem create_row_same_key_overwrites (st : Store) (name : String) (tbl : Table)
    (r1 r2 : Row) (v0 : Value)
    (ht : KVTransaction.get_table st name = Except.ok (some tbl))
    (hc1 : checkLoop r1 tbl.columns 0 = CheckRes.passed)
    (hc2 : checkLoop r2 tbl.columns 0 = CheckRes.passed)
    (h1 : r1.head? = some v0) (h2 : r2.head? = some v0) :
    KVTransaction.create_row st name r1 =
      RowRes.stored (MemoryEngine.set st (encodeKey (KvKey.row name v0)) (encodeRow r1)) ∧
    KVTransaction.create_row
        (MemoryEngine.set st (encodeKey (KvKey.row name v0)) (encodeRow r1)) name r2 =
      RowRes.stored (MemoryEngine.set
        (MemoryEngine.set st (encodeKey (KvKey.row name v0)) (encodeRow r1))
        (encodeKey (KvKey.row name v0)) (encodeRow r2)) ∧
    MemoryEngine.get (MemoryEngine.set
        (MemoryEngine.set st (encodeKey (KvKey.row name v0)) (encodeRow r1))
        (encodeKey (KvKey.row name v0)) (encodeRow r2))
      (encodeKey (KvKey.row name v0)) = some (encodeRow r2) := by
  have hst1 : KVTransaction.get_table
      (MemoryEngine.set st (encodeKey (KvKey.row name v0)) (encodeRow r1)) name =
      Except.ok (some tbl) := by
    rw [get_table_set_other st name _ _ (tableKey_ne_rowKey name name v0), ht]
  refine ⟨?_, ?_, ?_⟩
  · simp [KVTransaction.create_row, KVTransaction.must_get_table, ht, hc1, h1]
  · simp [KVTransaction.create_row, KVTransaction.must_get_table, hst1, hc2, h2]
  · exact MemoryEngine.get_set_self _ _ _

/-- Witness for C9: the demo table with two integer rows sharing first value
`1`; both inserts succeed and the second replaces the first. -/
theorem create_row_same_key_overwrites_witness :
    KVTransaction.get_table demoStore "t" = Except.ok (some demoTable) ∧
    checkLoop [Value.integer 1, Value.integer 2] demoTable.columns 0 = CheckRes.passed ∧
    checkLoop [Value.integer 1, Value.integer 3] demoTable.columns 0 = CheckRes.passed ∧
    (KVTransaction.create_row demoStore "t" [Value.integer 1, Value.integer 2] =
      RowRes.stored (MemoryEngine.set demoStore (encodeKey (KvKey.row "t" (Value.integer 1)))
        (encodeRow [Value.integer 1, Value.integer 2])) ∧
    KVTransaction.create_row
        (MemoryEngine.set demoStore (encodeKey (KvKey.row "t" (Value.integer 1)))
          (encodeRow [Value.integer 1, Value.integer 2])) "t" [Value.integer 1, Value.integer 3] =
      RowRes.stored (MemoryEngine.set
        (MemoryEngine.set demoStore (encodeKey (KvKey.row "t" (Value.integer 1)))
          (encodeRow [Value.integer 1, Value.integer 2]))
        (encodeKey (KvKey.row "t" (Value.integer 1)))
        (encodeRow [Value.integer 1, Value.integer 3])) ∧
    MemoryEngine.get (MemoryEngine.set
        (MemoryEngine.set demoStore (encodeKey (KvKey.row "t" (Value.integer 1)))
          (encodeRow [Value.integer 1, Value.integer 2]))
        (encodeKey (KvKey.row "t" (Value.integer 1)))
        (encodeRow [Value.integer 1, Value.integer 3]))
      (encodeKey (KvKey.row "t" (Value.integer 1))) =
        some (encodeRow [Value.integer 1, Value.integer 3])) :=
  ⟨rfl, rfl, rfl,
    create_row_same_key_overwrites demoStore "t" demoTable
      [Value.integer 1, Value.integer 2] [Value.integer 1, Value.integer 3]
      (Value.integer 1) rfl rfl rfl rfl rfl⟩

theorem checkLoop_short_not_passed (row : Row) (cols : List Column) (i : Nat)
    (hle : i ≤ row.length) (hlt : row.length < i + cols.length) :
    checkLoop row cols i ≠ CheckRes.passed := by
  induction cols generalizing i with
  | nil =>
    exfalso
    simp only [List.length_nil] at hlt
    omega
  | cons c rest ih =>
    simp only [checkLoop]
    cases hg : row.get? i with
    | none => simp
    | some v =>
      have hi : i < row.length := by
        by_contra hnot
        rw [List.get?_eq_none.mpr (by omega)] at hg
        exact Option.noConfusion hg
      cases hco : colOk c v with
      | some e => simp [hco]
      | none =>
        simp only [hco]
        exact ih (i + 1) (by omega) (by simp only [List.length_cons] at hlt; omega)

theorem checkLoop_short_all_pass_panics (row : Row) (cols : List Column) (i : Nat)
    (hle : i ≤ row.length) (hlt : row.length < i + cols.length)
    (hpass : ∀ j (hj : i + j < row.length) (hj2 : j < cols.length),
      colOk (cols.get ⟨j, hj2⟩) (row.get ⟨i + j, hj⟩) = none) :
    checkLoop row cols i = CheckRes.panicked := by
  induction cols generalizing i with
  | nil =>
    exfalso
    simp only [List.length_nil] at hlt
    omega
  | cons c rest ih =>
    simp only [checkLoop]
    cases hg : row.get? i with
    | none => rfl
    | some v =>
      have hi : i < row.length := by
        by_contra hnot
        rw [List.get?_eq_none.mpr (by omega)] at hg
        exact Option.noConfusion hg
      obtain ⟨hi', hgv⟩ := List.get?_eq_some.mp hg
      have hcv : colOk c v = none := by
        rw [← hgv]
        exact hpass 0 (by omega) (by simp only [List.length_cons]; omega)
      simp only [hcv]
      refine ih (i + 1) (by omega) (by simp only [List.length_cons] at hlt; omega) ?_
      intro j hj hj2
      rw [show (⟨i + 1 + j, hj⟩ : Fin row.length) = ⟨i + (j + 1), by omega⟩ from
        Fin.ext (show i + 1 + j = i + (j + 1) by omega)]
      exact hpass (j + 1) (by omega) (by simp only [List.length_cons]; omega)

/-- C10 counterexample: row `[Null]` is shorter than demo table `t`'s two
columns, yet `create_row` returns the `cannot be null` validation error for
column `a` rather than panicking — refuting the claim that every row shorter
than the column list makes the validation loop index past the row's end and
panic. -/
theorem create_row_short_row_no_panic_cex :
    KVTransaction.create_row demoStore "t" [Value.null] =
      RowRes.failed (DBError.internal "column a cannot be null") ∧
    KVTransaction.create_row demoStore "t" [Value.null] ≠ RowRes.panicked :=
  ⟨rfl, by decide⟩

/-- C10 amended: a row shorter than the table's column list is never stored;
it panics exactly when validation does not reject it first, i.e. whenever
every value of the row passes its column's check the loop reaches an index
past the row's end and panics.  Totality thus needs the precondition that the
row has at least as many values as the table has columns. -/
theorem create_row_short_row (st : Store) (name : String) (tbl : Table) (row : Row)
    (ht : KVTransaction.get_table st name = Except.ok (some tbl))
    (hlen : row.length < tbl.columns.length) :
    (∀ st', KVTransaction.create_row st name row ≠ RowRes.stored st') ∧
    ((∀ j : Fin row.length,
        colOk (tbl.columns.get ⟨j.val, lt_trans j.isLt hlen⟩) (row.get j) = none) →
      KVTransaction.create_row st name row = RowRes.panicked) := by
  constructor
  · intro st'
    simp only [KVTransaction.create_row, KVTransaction.must_get_table, ht]
    have hnp := checkLoop_short_not_passed row tbl.columns 0 (by omega) (by omega)
    cases hc : checkLoop row tbl.columns 0 with
    | panicked => simp
    | failed e => simp
    | passed => exact absurd hc hnp
  · intro hpass
    have hloop : checkLoop row tbl.columns 0 = CheckRes.panicked := by
      refine checkLoop_short_all_pass_panics row tbl.columns 0 (by omega) (by omega) ?_
      intro j hj hj2
      rw [show (⟨0 + j, hj⟩ : Fin row.length) = ⟨j, by omega⟩ from
        Fin.ext (show 0 + j = j by omega)]
      exact hpass ⟨j, by omega⟩
    simp only [KVTransaction.create_row, KVTransaction.must_get_table, ht, hloop]

/-- Witness for C10 amended: row `[1]` (one value, passing its column check)
against the two-column demo table: `create_row` is never `stored` and the
all-checks-pass branch panics. -/
theorem create_row_short_row_witness :
    KVTransaction.get_table demoStore "t" = Except.ok (some demoTable) ∧
    ([Value.integer 1] : Row).length < demoTable.columns.length ∧
    ((∀ st', KVTransaction.create_row demoStore "t" [Value.integer 1] ≠ RowRes.stored st') ∧
      ((∀ j : Fin ([Value.integer 1] : Row).length,
          colOk (demoTable.columns.get ⟨j.val, lt_trans j.isLt (by decide)⟩)
            (([Value.integer 1] : Row).get j) = none) →
        KVTransaction.create_row demoStore "t" [Value.integer 1] = RowRes.panicked)) :=
  ⟨rfl, by decide,
    create_row_short_row demoStore "t" demoTable [Value.integer 1] rfl (by decide)⟩
